import Mathlib

/-
  Verification of the tcpdumpw capture-task orchestrator
  (cloud-run-tcpdump, src/tcpdumpw/main.go).

  Shallow embedding: the pure data flow of `main.go` is translated into
  Lean functions; external collaborators (pcap engines, writers, the gocron
  scheduler, `net.InterfaceByName`, `time.LoadLocation`) are supplied as
  explicit environment parameters whose results the code branches on.
  Goroutine/context behaviour of `start` is modelled by explicit event
  times (`Option Nat`, `none` = never).
-/

namespace Tcpdumpw

/-! ## Logging model (`jlog`, main.go lines 48-107) -/

/-- Severities of `jLogLevel` (main.go lines 82-86). -/
inductive JLogLevel where
  | INFO
  | ERROR
  | FATAL
deriving DecidableEq, Repr

/-- `uuid.UUID` values: the distinguished `uuid.Nil` or a fresh value. -/
inductive Uuid where
  | nil
  | v (n : Nat)
deriving DecidableEq, Repr

/-- `uuid.UUID.String()`: `uuid.Nil` renders as the zero UUID. -/
def Uuid.str : Uuid → String
  | .nil => "00000000-0000-0000-0000-000000000000"
  | .v n => "uuid-" ++ toString n

/-- The JSON-serialised fields of `tcpdumpJob` (main.go lines 60-68); the
non-serialised fields (`j`, `tasks`, `ctx`) live in `JobRecord` below. -/
structure TcpdumpJob where
  xid : String := ""
  jid : String := ""
  name : String := ""
  tags : List String := []
deriving DecidableEq, Repr

/-- `emptyTcpdumpJob = tcpdumpJob{Jid: uuid.Nil.String()}` (main.go line 51). -/
def emptyTcpdumpJob : TcpdumpJob := { jid := Uuid.str Uuid.nil }

/-- Each constructor embeds one `fmt.Sprintf` call site of `main.go`:
the constructor tags the format string, the fields carry the interpolated
values (e.g. `invalidIface i e` embeds `"invalid iface: %s (%s)"`). -/
inductive LogMsg where
  | argsLine (useCron : Bool) (cronExp tz : String) (timeout : Int)
      (extension directory : String) (snaplen : Int) (filter : String)
      (interval : Int) (tcpdump jsondump jsonlog ordered : Bool)
  | invalidIface (iface err : String)
  | configuringIface (ifaceAndIndex : String)
  | configuredTcpdump (ifaceAndIndex : String)
  | tcpdumpTaskFailed (ifaceAndIndex err : String)
  | jsondumpTaskFailed (ifaceAndIndex err : String)
  | jsondumpFileWriterFailed (ifaceAndIndex err : String)
  | jsondumpStdoutWriterFailed (ifaceAndIndex err : String)
  | configuredJsondump (ifaceAndIndex : String)
  | noTasks
  | parsedTimeout (timeout : Int)
  | couldNotLoadTimezone (tz err : String)
  | parsedTimezone (location : String)
  | schedulerFailed (err : String)
  | scheduledJobFailed (err : String)
  | scheduledJob
  | nextExecution (t : String)
  | executionStarted (lastRun : String)
  | executionComplete
  | jobNotFound (jid : String)
  | signaled (s : String)
deriving DecidableEq, Repr

/-- One invocation of `jlog(severity, job, message)`. -/
structure LogCall where
  severity : JLogLevel
  job : TcpdumpJob
  message : LogMsg
deriving DecidableEq, Repr

/-- The `jLogEntry` struct (main.go lines 72-79). -/
structure JLogEntry where
  severity : JLogLevel
  message : LogMsg
  sidecar : String
  module : String
  job : TcpdumpJob
  tags : List String
deriving DecidableEq, Repr

/-- `jlog` (main.go lines 88-107): copies the job, substitutes the current
execution id loaded from the process-wide `xid` value, and emits an entry
that duplicates the job tags at top level.  The globals `sidecar`, `module`
and `xid` are passed explicitly. -/
def jlog (sidecar module : String) (xid : Uuid)
    (severity : JLogLevel) (job : TcpdumpJob) (message : LogMsg) : JLogEntry :=
  let j : TcpdumpJob := { job with xid := Uuid.str xid }
  { severity := severity
    message := message
    sidecar := sidecar
    module := module
    job := j
    tags := j.tags }

/-! ## Capture configuration and tasks (main.go lines 54-58, 173-185) -/

/-- `pcap.PcapConfig` fields set by `main.go`; `Ordered` is assigned
separately at line 236. -/
structure PcapConfig where
  promisc : Bool
  iface : String
  snaplen : Int
  tsType : String
  format : String
  output : String
  extension : String
  filter : String
  interval : Int
  ordered : Bool := false
deriving DecidableEq, Repr

/-- `newPcapConfig` (main.go lines 173-185). -/
def newPcapConfig (iface format output extension filter : String)
    (snaplen interval : Int) : PcapConfig :=
  { promisc := true
    iface := iface
    snaplen := snaplen
    tsType := ""
    format := format
    output := output
    extension := extension
    filter := filter
    interval := interval }

/-- A constructed `pcap.PcapEngine`, identified by its constructor
(`pcap.NewTcpdump` or `pcap.NewPcap`) and its configuration. -/
inductive PcapEngine where
  | tcpdumpE (cfg : PcapConfig)
  | gopacketE (cfg : PcapConfig)
deriving DecidableEq, Repr

/-- The configuration an engine was built from. -/
def PcapEngine.config : PcapEngine → PcapConfig
  | .tcpdumpE cfg => cfg
  | .gopacketE cfg => cfg

/-- A constructed `pcap.PcapWriter` (file writer or stdout writer). -/
inductive PcapWriter where
  | fileW (output extension tz : String) (interval : Int)
  | stdoutW
deriving DecidableEq, Repr

/-- `pcapTask` (main.go lines 55-58); a Go writer slice may contain `nil`
entries, hence `Option`. -/
structure PcapTask where
  engine : PcapEngine
  writers : List (Option PcapWriter)
deriving DecidableEq, Repr

/-! ## Task factory (`createTasks`, main.go lines 187-277) -/

/-- The fields of `net.Interface` used by `createTasks`. -/
structure Iface where
  name : String
  index : Nat
deriving DecidableEq, Repr

/-- External collaborators of `createTasks`: the device list returned by
`pcap.FindDevicesByRegex`, `net.InterfaceByName`, and the four fallible
constructors.  A constructor either succeeds (`Except.ok`) or yields an
error text. -/
structure TaskEnv where
  devices : List String
  interfaceByName : String → Except String Iface
  newTcpdump : PcapConfig → Except String Unit
  newPcap : PcapConfig → Except String Unit
  newPcapWriter : String → String → String → Int → Except String Unit
  newStdoutPcapWriter : Except String Unit

/-- The process flags (main.go lines 26-40), with their declared defaults. -/
structure Flags where
  useCron : Bool := false
  cronExp : String := ""
  timezone : String := "UTC"
  timeout : Int := 0
  interval : Int := 60
  snaplen : Int := 0
  filter : String := ""
  extension : String := "pcap"
  directory : String := ""
  tcpdump : Bool := true
  jsondump : Bool := false
  jsonlog : Bool := false
  ordered : Bool := false
deriving DecidableEq, Repr

/-- `fmt.Sprintf("%d/%s", netIface.Index, iface)` (main.go line 202). -/
def ifaceAndIndexStr (ifc : Iface) : String :=
  toString ifc.index ++ "/" ++ ifc.name

/-- The output path template (main.go line 206). -/
def outputPath (directory : String) (ifc : Iface) : String :=
  directory ++ "/part__" ++ toString ifc.index ++ "_" ++ ifc.name ++ "__%Y%m%d_%H%M%S"

/-- Lines 263-273 of `createTasks`: construct the stdout writer; on failure
log and abandon the decoded task for this interface, otherwise append the
writer and the decoded task. -/
def jsonStdoutPhase (env : TaskEnv) (ifaceAndIndex : String)
    (jsondumpCfg : PcapConfig) (pcapWriters : List (Option PcapWriter)) :
    List LogCall × List PcapTask :=
  match env.newStdoutPcapWriter with
  | .error e =>
    ([⟨.ERROR, emptyTcpdumpJob, .jsondumpStdoutWriterFailed ifaceAndIndex e⟩], [])
  | .ok _ =>
    let pcapWriters := pcapWriters ++ [some PcapWriter.stdoutW]
    ([⟨.INFO, emptyTcpdumpJob, .configuredJsondump ifaceAndIndex⟩],
      [{ engine := .gopacketE jsondumpCfg, writers := pcapWriters }])

/-- Lines 216-227 of `createTasks`: attempt the raw (`tcpdump`) engine —
unless raw capture is disabled by the flag — and append its task or log
the failure. -/
def rawPhase (env : TaskEnv) (f : Flags) (ifaceAndIndex : String)
    (tcpdumpCfg : PcapConfig) : List LogCall × List PcapTask :=
  match (if f.tcpdump then env.newTcpdump tcpdumpCfg else Except.error "disabled") with
  | .ok _ =>
    ([⟨.INFO, emptyTcpdumpJob, .configuredTcpdump ifaceAndIndex⟩],
      [{ engine := .tcpdumpE tcpdumpCfg, writers := [] }])
  | .error e =>
    ([⟨.ERROR, emptyTcpdumpJob, .tcpdumpTaskFailed ifaceAndIndex e⟩], [])

/-- Lines 234-273 of `createTasks` (the part after the line-230 guard):
attempt the decoded engine, then the file writer (only when `*jsondump`;
when it is skipped the nil `jsondumpWriter` is appended anyway), then —
unless line 258 short-circuits with the file-only task — the stdout
writer. -/
def jsonPhase (env : TaskEnv) (f : Flags) (ifaceAndIndex output : String)
    (jsondumpCfg : PcapConfig) : List LogCall × List PcapTask :=
  match env.newPcap jsondumpCfg with
  | .error e =>
    ([⟨.ERROR, emptyTcpdumpJob, .jsondumpTaskFailed ifaceAndIndex e⟩], [])
  | .ok _ =>
    let fileRes : Except String (Option PcapWriter) :=
      if f.jsondump then
        match env.newPcapWriter output jsondumpCfg.extension f.timezone f.interval with
        | .ok _ => .ok (some (.fileW output jsondumpCfg.extension f.timezone f.interval))
        | .error e => .error e
      else .ok none
    match fileRes with
    | .error e =>
      -- `writerErr != nil`: log; the line-258 condition is false, go to the stdout phase
      let stepD := jsonStdoutPhase env ifaceAndIndex jsondumpCfg []
      ([⟨.ERROR, emptyTcpdumpJob, .jsondumpFileWriterFailed ifaceAndIndex e⟩] ++ stepD.1,
        stepD.2)
    | .ok w =>
      -- line 258: append the file-only task when console mirroring is off
      if !f.jsonlog then
        ([], [{ engine := .gopacketE jsondumpCfg, writers := [w] }])
      else
        jsonStdoutPhase env ifaceAndIndex jsondumpCfg [w]

/-- One iteration of the `createTasks` device loop (main.go lines 193-274):
resolve the interface, attempt the raw (`tcpdump`) task, then — only when
the line-230 guard does not short-circuit the iteration — run the
decoded-capture phase. -/
def taskForIface (env : TaskEnv) (f : Flags) (iface0 : String) :
    List LogCall × List PcapTask :=
  match env.interfaceByName iface0 with
  | .error e => ([⟨.ERROR, emptyTcpdumpJob, .invalidIface iface0 e⟩], [])
  | .ok netIface =>
    let iface := netIface.name
    let ifaceAndIndex := ifaceAndIndexStr netIface
    let logsA : List LogCall := [⟨.INFO, emptyTcpdumpJob, .configuringIface ifaceAndIndex⟩]
    let output := outputPath f.directory netIface
    let tcpdumpCfg := newPcapConfig iface "pcap" output f.extension f.filter f.snaplen f.interval
    let jsondumpCfg := newPcapConfig iface "json" output "json" f.filter f.snaplen f.interval
    let raw := rawPhase env f ifaceAndIndex tcpdumpCfg
    -- line 230: the guard skips JSON setup unless BOTH jsondump and jsonlog are set
    if !f.jsondump || !f.jsonlog then
      (logsA ++ raw.1, raw.2)
    else
      let js := jsonPhase env f ifaceAndIndex output { jsondumpCfg with ordered := f.ordered }
      (logsA ++ raw.1 ++ js.1, raw.2 ++ js.2)

/-- `createTasks` (main.go lines 187-277): fold the device loop, appending
each iteration's log calls and tasks. -/
def createTasks (env : TaskEnv) (f : Flags) : List LogCall × List PcapTask :=
  env.devices.foldl
    (fun acc iface =>
      let r := taskForIface env f iface
      (acc.1 ++ r.1, acc.2 ++ r.2))
    ([], [])

/-! ## Device selection (main.go lines 190-191)

The interface regex literal is
`fmt.Sprintf("^(?:ipvlan-)?%s\\d+.*", ifacePattern)`; we embed regular
expressions with Brzozowski derivatives and give the regex its exact
abstract syntax. -/

/-- Regular expressions over `Char`; `cls` is a character class. -/
inductive Regex where
  | emp
  | eps
  | cls (p : Char → Bool)
  | cat (a b : Regex)
  | alt (a b : Regex)
  | star (r : Regex)

/-- A single literal character. -/
def chr (c : Char) : Regex := .cls (fun x => x == c)

/-- The `?` postfix operator. -/
def opt (r : Regex) : Regex := .alt r .eps

/-- The `+` postfix operator. -/
def rplus (r : Regex) : Regex := .cat r (.star r)

/-- The `.` metacharacter (no `$` anchor and no newline appears below, so
taking it as any character is exact here). -/
def anyChar : Regex := .cls (fun _ => true)

/-- The `\d` class. -/
def digitCls : Regex := .cls Char.isDigit

/-- A literal string. -/
def strR : List Char → Regex
  | [] => .eps
  | c :: cs => .cat (chr c) (strR cs)

/-- The characters of the literal `ipvlan-`. -/
def ipvlanChars : List Char := ['i', 'p', 'v', 'l', 'a', 'n', '-']

/-- `^(?:ipvlan-)?<pat>\d+.*` (main.go line 190), for a pattern without
regex metacharacters. -/
def ifaceRegex (pat : List Char) : Regex :=
  .cat (opt (strR ipvlanChars)) (.cat (strR pat) (.cat (rplus digitCls) (.star anyChar)))

/-- Nullability: does the regex accept the empty string. -/
def nullable : Regex → Bool
  | .emp => false
  | .eps => true
  | .cls _ => false
  | .cat a b => nullable a && nullable b
  | .alt a b => nullable a || nullable b
  | .star _ => true

/-- Brzozowski derivative. -/
def deriv : Regex → Char → Regex
  | .emp, _ => .emp
  | .eps, _ => .emp
  | .cls p, c => if p c then .eps else .emp
  | .cat a b, c =>
    if nullable a then .alt (.cat (deriv a c) b) (deriv b c)
    else .cat (deriv a c) b
  | .alt a b, c => .alt (deriv a c) (deriv b c)
  | .star r, c => .cat (deriv r c) (.star r)

/-- Go `MatchString` on a pattern anchored with a leading `^` and no `$`:
some chunk of the text starting at position 0 matches. -/
def searchAt (r : Regex) : List Char → Bool
  | [] => nullable r
  | c :: s => nullable r || searchAt (deriv r c) s

/-- The language of a regex. -/
inductive Lang : Regex → List Char → Prop where
  | eps : Lang .eps []
  | cls {p : Char → Bool} {c : Char} : p c = true → Lang (.cls p) [c]
  | catI {a b : Regex} {u v : List Char} :
      Lang a u → Lang b v → Lang (.cat a b) (u ++ v)
  | altL {a b : Regex} {u : List Char} : Lang a u → Lang (.alt a b) u
  | altR {a b : Regex} {u : List Char} : Lang b u → Lang (.alt a b) u
  | starNil {r : Regex} : Lang (.star r) []
  | starCons {r : Regex} {u v : List Char} :
      Lang r u → Lang (.star r) v → Lang (.star r) (u ++ v)

/-- Does `s` begin with `pat` followed by a decimal digit — the documented
selection criterion, stated directly. -/
def leadMatch : List Char → List Char → Bool
  | [], c :: _ => c.isDigit
  | [], [] => false
  | p :: pat, c :: s => p == c && leadMatch pat s
  | _ :: _, [] => false

/-- The spec's matcher (§4.1): an optional `ipvlan-` prefix, the literal
pattern, then a numeric suffix. -/
def ifaceNameMatch (pat s : List Char) : Bool :=
  leadMatch pat s || leadMatch (ipvlanChars ++ pat) s

/-- Modelled from the spec: the Device Enumerator
(`pcap.FindDevicesByRegex`, external) returns the host interface names
matching the compiled matcher (spec §6). -/
def selectDevices (pat : List Char) (hostIfaces : List (List Char)) : List (List Char) :=
  hostIfaces.filter (fun s => searchAt (ifaceRegex pat) s)

/-! ## Execution context manager (`start`, main.go lines 128-153)

Times are `Option Nat` instants: `none` means the event never happens. -/

/-- Earliest of two optional instants (`none` = never). -/
def omin : Option Nat → Option Nat → Option Nat
  | none, b => b
  | a, none => a
  | some x, some y => some (min x y)

/-- Latest of two optional instants (`none` = never). -/
def omax : Option Nat → Option Nat → Option Nat
  | none, _ => none
  | _, none => none
  | some x, some y => some (max x y)

/-- `a` happens no later than `b` (never = ∞). -/
def oLE : Option Nat → Option Nat → Prop
  | _, none => True
  | none, some _ => False
  | some x, some y => x ≤ y

/-- The observable behaviour of one task's `engine.Start(ctx, writers)`
goroutine: when the engine self-terminates, how long it needs to wind down
once the context ends, and the error its `Start` returns (discarded by
`start`). -/
structure TaskRun where
  selfEnd : Option Nat
  stopGrace : Nat
  runErr : Option String
deriving DecidableEq, Repr

/-- Arguments of one `start` call: when the base context is cancelled
externally, the `timeout` flag value (seconds; `> 0` adds a deadline), and
the per-task behaviours. -/
structure StartArgs where
  extCancel : Option Nat
  timeout : Nat
  tasks : List TaskRun
deriving DecidableEq, Repr

/-- When `ctx.Done()` fires inside `start`: with `timeout > 0` a deadline
at `timeout` is added to the base context (main.go lines 134-137). -/
def ctxDoneAt (a : StartArgs) : Option Nat :=
  if a.timeout > 0 then omin (some a.timeout) a.extCancel else a.extCancel

/-- When one task's goroutine returns: at its engine's natural end, or
its wind-down after the context ends, whichever is earlier (the engines
are context-aware). -/
def taskReturnAt (ctxDone : Option Nat) (t : TaskRun) : Option Nat :=
  omin t.selfEnd (ctxDone.map (· + t.stopGrace))

/-- When `start` returns: it first blocks on `<-ctx.Done()` (line 147) —
forever if the context never ends — then on `wg.Wait()` (line 150) until
every task goroutine has returned. -/
def startReturnAt (a : StartArgs) : Option Nat :=
  match ctxDoneAt a with
  | none => none
  | some d => (a.tasks.map (taskReturnAt (some d))).foldl omax (some d)

/-- The value `start` returns when it returns: `nil` on its only return
path (line 152). -/
def startReturn (a : StartArgs) : Option (Nat × Except String Unit) :=
  (startReturnAt a).map (fun t => (t, Except.ok ()))

/-- When every engine has self-terminated (never, if one never does). -/
def allSelfEndAt (a : StartArgs) : Option Nat :=
  a.tasks.foldl (fun acc t => omax acc t.selfEnd) (some 0)

/-! ## The scheduled trigger (`tcpdump`, main.go lines 155-171) -/

/-- The non-serialised part of `tcpdumpJob` relevant to an execution. -/
structure JobRecord where
  job : TcpdumpJob
  tasks : List PcapTask
deriving DecidableEq, Repr

/-- `fmt.Sprintf("job[id:%s] not found", jobID)`. -/
def jobNotFoundMsg (jobID : Uuid) : String :=
  "job[id:" ++ Uuid.str jobID ++ "] not found"

/-- `tcpdump` (main.go lines 155-171): look up the current job id in the
registry; if absent, log an ERROR with the placeholder job and return the
error; otherwise run `start` on the job's tasks.  Returns the log calls,
the tasks handed to `start` (empty when nothing ran), and the eventual
return value (`none` = never returns). -/
def tcpdumpRun (jobs : Uuid → Option JobRecord) (jid : Uuid)
    (runOf : JobRecord → StartArgs) :
    List LogCall × List PcapTask × Option (Except String Unit) :=
  match jobs jid with
  | none =>
    ([⟨.ERROR, emptyTcpdumpJob, .jobNotFound (Uuid.str jid)⟩], [],
      some (Except.error (jobNotFoundMsg jid)))
  | some jr =>
    ([], jr.tasks, (startReturn (runOf jr)).map Prod.snd)

/-! ## Scheduler singleton enforcement (main.go lines 319-347)

Modelled from the spec: the scheduler itself is the external gocron
library; §4.3 fixes the contract of the modes the source selects —
`LimitModeReschedule` drops a trigger that fires while an execution is
active, while a wait mode would queue it. -/

/-- gocron limit modes. -/
inductive LimitMode where
  | reschedule
  | wait
deriving DecidableEq, Repr

/-- Scheduler-visible events for the single job: a cron trigger firing, or
the running execution finishing. -/
inductive SchedEvent where
  | trigger
  | finish
deriving DecidableEq, Repr

/-- Scheduler state for the job: executions currently active, triggers
queued for later (never, under reschedule mode), triggers dropped, and
executions started. -/
structure SchedState where
  active : Nat := 0
  queued : Nat := 0
  dropped : Nat := 0
  started : Nat := 0
deriving DecidableEq, Repr

/-- Modelled from the spec: one scheduler transition (§4.3).  A trigger
with no active execution starts one; with an active execution the trigger
is dropped under `reschedule` and queued under `wait`.  A finish releases
the slot, and under `wait` a queued trigger starts immediately. -/
def schedStep (mode : LimitMode) (s : SchedState) : SchedEvent → SchedState
  | .trigger =>
    if s.active = 0 then { s with active := s.active + 1, started := s.started + 1 }
    else
      match mode with
      | .reschedule => { s with dropped := s.dropped + 1 }
      | .wait => { s with queued := s.queued + 1 }
  | .finish =>
    if s.active = 0 then s
    else
      match mode with
      | .reschedule => { s with active := s.active - 1 }
      | .wait =>
        if s.queued > 0 then
          { s with queued := s.queued - 1, started := s.started + 1 }
        else { s with active := s.active - 1 }

/-- Run the scheduler over an event trace. -/
def schedRunFrom (mode : LimitMode) (s : SchedState) (evs : List SchedEvent) : SchedState :=
  evs.foldl (schedStep mode) s

/-- Run from the initial state. -/
def schedRun (mode : LimitMode) (evs : List SchedEvent) : SchedState :=
  schedRunFrom mode {} evs

/-- The execution-relevant observables of a scheduler state (everything
except the dropped-trigger count). -/
def SchedState.obs (s : SchedState) : Nat × Nat × Nat :=
  (s.active, s.queued, s.started)

/-- The options `main` passes to gocron (lines 319-320 and 342):
`WithLimitConcurrentJobs(1, LimitModeReschedule)` and
`WithSingletonMode(LimitModeReschedule)`. -/
structure SchedulerConfig where
  limitConcurrentJobs : Nat
  limitMode : LimitMode
  singletonMode : LimitMode
deriving DecidableEq, Repr

/-- The configuration built in `main`. -/
def mainSchedulerConfig : SchedulerConfig :=
  { limitConcurrentJobs := 1
    limitMode := .reschedule
    singletonMode := .reschedule }

/-! ## Timezone fallback (main.go lines 308-315) -/

/-- The observable steps of the fallback block, in program order. -/
inductive TzAction where
  | substituteUTC
  | logCall (c : LogCall)
deriving DecidableEq, Repr

/-- Result of the timezone block: the final `*timezone`, the final
`location`, and the ordered actions taken. -/
structure TzResult where
  timezone : String
  location : String
  actions : List TzAction
deriving DecidableEq, Repr

/-- Lines 308-314: `time.LoadLocation(*timezone)`; on error the code first
assigns `*timezone = "UTC"` and `location = time.UTC`, and only then logs
the ERROR — whose `%s` argument is the already-substituted `*timezone`. -/
def timezoneFallback (loadLocation : String → Except String String)
    (tz0 : String) : TzResult :=
  match loadLocation tz0 with
  | .ok loc => { timezone := tz0, location := loc, actions := [] }
  | .error e =>
    let tz1 := "UTC"
    { timezone := tz1
      location := "UTC"
      actions := [.substituteUTC,
        .logCall ⟨.ERROR, emptyTcpdumpJob, .couldNotLoadTimezone tz1 e⟩] }

/-- The log calls among a list of timezone actions. -/
def tzLogCalls (acts : List TzAction) : List LogCall :=
  acts.filterMap (fun a => match a with | .substituteUTC => none | .logCall c => some c)

/-! ## Lifecycle controller (`main`, main.go lines 279-387) -/

/-- The external collaborators `main` consults, beyond those of
`createTasks`: `time.LoadLocation`, `gocron.NewScheduler`, `s.NewJob`. -/
structure MainEnv where
  taskEnv : TaskEnv
  loadLocation : String → Except String String
  newScheduler : Except String Unit
  newJob : Except String Uuid

/-- The exit code and startup log trace of `main` (lines 279-365): `os.Exit(1)`
when no tasks, `os.Exit(2)` on scheduler creation failure, `os.Exit(3)` on job
creation failure, and 0 whenever `main` returns normally. -/
def mainModel (me : MainEnv) (f : Flags) : Nat × List LogCall :=
  let logs0 : List LogCall :=
    [⟨.INFO, emptyTcpdumpJob,
      .argsLine f.useCron f.cronExp f.timezone f.timeout f.extension f.directory
        f.snaplen f.filter f.interval f.tcpdump f.jsondump f.jsonlog f.ordered⟩]
  let ct := createTasks me.taskEnv f
  if ct.2.isEmpty then
    (1, logs0 ++ ct.1 ++ [⟨.ERROR, emptyTcpdumpJob, .noTasks⟩])
  else
    let logs1 := logs0 ++ ct.1 ++ [⟨.INFO, emptyTcpdumpJob, .parsedTimeout f.timeout⟩]
    if !f.useCron then
      (0, logs1)
    else
      let tzr := timezoneFallback me.loadLocation f.timezone
      let logs2 := logs1 ++ tzLogCalls tzr.actions
        ++ [⟨.INFO, emptyTcpdumpJob, .parsedTimezone tzr.location⟩]
      match me.newScheduler with
      | .error e => (2, logs2 ++ [⟨.ERROR, emptyTcpdumpJob, .schedulerFailed e⟩])
      | .ok _ =>
        match me.newJob with
        | .error e => (3, logs2 ++ [⟨.ERROR, emptyTcpdumpJob, .scheduledJobFailed e⟩])
        | .ok _ => (0, logs2 ++ [⟨.INFO, emptyTcpdumpJob, .scheduledJob⟩])

/-- Is the log call the ERROR carrying `no PCAP tasks available`? -/
def isNoTasksErr (c : LogCall) : Bool :=
  match c.severity, c.message with
  | .ERROR, .noTasks => true
  | _, _ => false

/-- Number of ERROR log calls carrying the `no PCAP tasks available`
message. -/
def countNoTasks (l : List LogCall) : Nat :=
  (l.filter isNoTasksErr).length

/-! ## Concrete instances used to evaluate the model -/

/-- Is the engine the decoded (gopacket/JSON) variant? -/
def PcapEngine.isDecoded : PcapEngine → Bool
  | .tcpdumpE _ => false
  | .gopacketE _ => true

/-- The flag defaults (every flag left at its declared default). -/
def exFlags : Flags := {}

/-- A host with a single resolvable interface `eth0` where every external
constructor succeeds. -/
def exTaskEnv : TaskEnv :=
  { devices := ["eth0"]
    interfaceByName := fun s =>
      if s = "eth0" then .ok ⟨"eth0", 1⟩
      else .error "route ip+net: no such network interface"
    newTcpdump := fun _ => .ok ()
    newPcap := fun _ => .ok ()
    newPcapWriter := fun _ _ _ _ => .ok ()
    newStdoutPcapWriter := .ok () }

/-- Like `exTaskEnv`, but the device list also names `wlan9`, which fails
to resolve. -/
def exTaskEnv2 : TaskEnv :=
  { exTaskEnv with devices := ["wlan9", "eth0"] }

/-- The raw-capture task `createTasks exTaskEnv exFlags` constructs. -/
def exTcpdumpTask : PcapTask :=
  { engine := .tcpdumpE (newPcapConfig "eth0" "pcap" (outputPath "" ⟨"eth0", 1⟩) "pcap" "" 0 60)
    writers := [] }

/-- Decoded file sink enabled, console mirroring disabled (raw capture
off, to isolate the decoded path). -/
def c3Flags : Flags := { tcpdump := false, jsondump := true, jsonlog := false }

/-- Both decoded sinks enabled. -/
def c3FlagsBoth : Flags := { tcpdump := false, jsondump := true, jsonlog := true }

/-- A `start` call with no deadline (`timeout = 0`), no external
cancellation, and a single engine that self-terminates at instant 5 with a
run error. -/
def c2Args : StartArgs :=
  { extCancel := none, timeout := 0, tasks := [⟨some 5, 0, some "engine failed"⟩] }

/-- A `start` call cancelled externally at instant 3, one engine that
never self-terminates and needs 2 instants to wind down. -/
def c2ArgsCancel : StartArgs :=
  { extCancel := some 3, timeout := 0, tasks := [⟨none, 2, none⟩] }

/-- A `time.LoadLocation` that resolves nothing. -/
def c4Load : String → Except String String :=
  fun s => .error ("unknown time zone " ++ s)

/-- Is the action an ERROR-severity log call? -/
def isErrLogAction : TzAction → Bool
  | .logCall c => decide (c.severity = JLogLevel.ERROR)
  | .substituteUTC => false

/-- The ordering the claim asserts: some ERROR log strictly precedes the
UTC substitution. -/
def errLogBeforeSubstitute (acts : List TzAction) : Prop :=
  ∃ i : Fin acts.length, ∃ j : Fin acts.length,
    i.val < j.val ∧ isErrLogAction (acts.get i) = true ∧ acts.get j = TzAction.substituteUTC

/-- A registry with no entry. -/
def exJobsEmpty : Uuid → Option JobRecord := fun _ => none

/-- A registry holding one job under id `Uuid.v 1`. -/
def exJobsOne : Uuid → Option JobRecord := fun u =>
  if u = Uuid.v 1 then some { job := { jid := Uuid.str (Uuid.v 1) }, tasks := [exTcpdumpTask] }
  else none

/-- Execution scope used by the concrete `tcpdumpRun` instances. -/
def exRunOf : JobRecord → StartArgs := fun _ => c2ArgsCancel

/-- A `MainEnv` over `exTaskEnv` where scheduling succeeds. -/
def exMainEnv : MainEnv :=
  { taskEnv := exTaskEnv
    loadLocation := fun s => if s = "UTC" then .ok "UTC" else .error ("unknown time zone " ++ s)
    newScheduler := .ok ()
    newJob := .ok (Uuid.v 1) }

/-- A `MainEnv` whose device list is empty, so no task can be built. -/
def exMainEnvEmpty : MainEnv :=
  { exMainEnv with taskEnv := { exTaskEnv with devices := [] } }

/-- `"eth0"` as characters. -/
def eth0Chars : List Char := ['e', 't', 'h', '0']

/-- `"lo"` as characters. -/
def loChars : List Char := ['l', 'o']

/-- `"ipvlan-eth1"` as characters. -/
def ipvlanEth1Chars : List Char := ipvlanChars ++ ['e', 't', 'h', '1']

/-- `"eth"` as characters. -/
def ethPat : List Char := ['e', 't', 'h']

end Tcpdumpw

namespace Tcpdumpw

/-! # Theorems -/

/-! ## Task-factory decomposition helpers -/

/-- `createTasks` is the per-device results concatenated in device order. -/
theorem createTasks_eq (env : TaskEnv) (f : Flags) :
    createTasks env f =
      ((env.devices.map (fun i => (taskForIface env f i).1)).flatten,
       (env.devices.map (fun i => (taskForIface env f i).2)).flatten) := by
  have h : ∀ (ds : List String) (acc : List LogCall × List PcapTask),
      ds.foldl (fun acc iface =>
        let r := taskForIface env f iface
        (acc.1 ++ r.1, acc.2 ++ r.2)) acc =
      (acc.1 ++ (ds.map (fun i => (taskForIface env f i).1)).flatten,
       acc.2 ++ (ds.map (fun i => (taskForIface env f i).2)).flatten) := by
    intro ds
    induction ds with
    | nil => intro acc; simp
    | cons d ds ih =>
      intro acc
      simp [List.foldl_cons, ih, List.append_assoc]
  simpa [createTasks] using h env.devices ([], [])

/-- Every task from the raw phase is the tcpdump engine over the given
configuration. -/
theorem rawPhase_tasks (env : TaskEnv) (f : Flags) (ifaceAndIndex : String)
    (cfg : PcapConfig) {t : PcapTask} (ht : t ∈ (rawPhase env f ifaceAndIndex cfg).2) :
    t.engine = PcapEngine.tcpdumpE cfg := by
  unfold rawPhase at ht
  cases h : (if f.tcpdump then env.newTcpdump cfg else Except.error "disabled") with
  | error e => rw [h] at ht; simp at ht
  | ok u => rw [h] at ht; simp at ht; simp [ht]

/-- Every task from the stdout phase is the decoded engine over the given
configuration. -/
theorem jsonStdoutPhase_tasks (env : TaskEnv) (ifaceAndIndex : String)
    (cfg : PcapConfig) (ws : List (Option PcapWriter)) {t : PcapTask}
    (ht : t ∈ (jsonStdoutPhase env ifaceAndIndex cfg ws).2) :
    t.engine = PcapEngine.gopacketE cfg := by
  unfold jsonStdoutPhase at ht
  cases h : env.newStdoutPcapWriter with
  | error e => rw [h] at ht; simp at ht
  | ok u => rw [h] at ht; simp at ht; simp [ht]

/-- Every task from the decoded phase is the decoded engine over the given
configuration. -/
theorem jsonPhase_tasks (env : TaskEnv) (f : Flags) (ifaceAndIndex output : String)
    (cfg : PcapConfig) {t : PcapTask}
    (ht : t ∈ (jsonPhase env f ifaceAndIndex output cfg).2) :
    t.engine = PcapEngine.gopacketE cfg := by
  unfold jsonPhase at ht
  cases h : env.newPcap cfg with
  | error e => rw [h] at ht; simp at ht
  | ok u =>
    rw [h] at ht
    simp only at ht
    split at ht
    · exact jsonStdoutPhase_tasks env ifaceAndIndex cfg [] (by simpa using ht)
    · split at ht
      · simp at ht; simp [ht]
      · exact jsonStdoutPhase_tasks env ifaceAndIndex cfg _ ht

/-- Every task built for one interface has promiscuous mode set and an
empty timestamp type. -/
theorem taskForIface_task_engine (env : TaskEnv) (f : Flags) (i0 : String)
    {t : PcapTask} (ht : t ∈ (taskForIface env f i0).2) :
    t.engine.config.promisc = true ∧ t.engine.config.tsType = "" := by
  unfold taskForIface at ht
  cases henv : env.interfaceByName i0 with
  | error e => rw [henv] at ht; simp at ht
  | ok ifc =>
    rw [henv] at ht
    simp only at ht
    split at ht
    · have := rawPhase_tasks env f (ifaceAndIndexStr ifc) _ (by simpa using ht)
      simp [this, PcapEngine.config, newPcapConfig]
    · simp only [List.mem_append] at ht
      rcases ht with ht | ht
      · have := rawPhase_tasks env f (ifaceAndIndexStr ifc) _ ht
        simp [this, PcapEngine.config, newPcapConfig]
      · have := jsonPhase_tasks env f (ifaceAndIndexStr ifc) _ _ ht
        simp [this, PcapEngine.config, newPcapConfig]

/-- C9: every capture configuration built by the Task Factory — raw or
decoded, any interface, any flag assignment — has promiscuous mode
unconditionally `true` and an empty timestamp type; no element of the
configuration surface can disable promiscuous mode. -/
theorem createTasks_promisc_unconditional (env : TaskEnv) (f : Flags) :
    ∀ t ∈ (createTasks env f).2,
      t.engine.config.promisc = true ∧ t.engine.config.tsType = "" := by
  intro t ht
  rw [createTasks_eq] at ht
  simp only [List.mem_flatten, List.mem_map] at ht
  obtain ⟨l, ⟨i, hi, rfl⟩, htl⟩ := ht
  exact taskForIface_task_engine env f i htl

/-- Witness: the raw task built for `eth0` under default flags. -/
theorem createTasks_promisc_unconditional_witness :
    exTcpdumpTask ∈ (createTasks exTaskEnv exFlags).2 ∧
    exTcpdumpTask.engine.config.promisc = true ∧
    exTcpdumpTask.engine.config.tsType = "" :=
  ⟨by decide, createTasks_promisc_unconditional exTaskEnv exFlags exTcpdumpTask (by decide)⟩

/-- C8: every emitted log entry carries the job identity, name and tags,
duplicates the tags at top level, and substitutes the current execution id
at emission time; with no job/execution yet, the placeholder job carries
the nil-UUID job identity, and the entry the nil-UUID execution identity. -/
theorem jlog_correlation (sidecar module : String) (xid : Uuid)
    (sev : JLogLevel) (job : TcpdumpJob) (msg : LogMsg) :
    (jlog sidecar module xid sev job msg).job.jid = job.jid ∧
    (jlog sidecar module xid sev job msg).job.name = job.name ∧
    (jlog sidecar module xid sev job msg).job.tags = job.tags ∧
    (jlog sidecar module xid sev job msg).tags = job.tags ∧
    (jlog sidecar module xid sev job msg).job.xid = Uuid.str xid ∧
    emptyTcpdumpJob.jid = Uuid.str Uuid.nil ∧
    (jlog sidecar module Uuid.nil sev emptyTcpdumpJob msg).job.jid = Uuid.str Uuid.nil ∧
    (jlog sidecar module Uuid.nil sev emptyTcpdumpJob msg).job.xid = Uuid.str Uuid.nil := by
  simp [jlog, emptyTcpdumpJob]

/-- C3 (code evaluation): with the decoded file sink enabled and console
mirroring disabled (`-jsondump -jsonlog=false`), the line-230 guard
short-circuits, so no decoded task and no decoded log call are produced —
even though every decoded constructor would succeed — while enabling both
sinks does produce a decoded task. -/
theorem jsondump_only_skips_decoded_capture :
    (createTasks exTaskEnv c3Flags).2.filter (fun t => t.engine.isDecoded) = [] ∧
    (createTasks exTaskEnv c3Flags).1 =
      [⟨.INFO, emptyTcpdumpJob, .configuringIface "1/eth0"⟩,
       ⟨.ERROR, emptyTcpdumpJob, .tcpdumpTaskFailed "1/eth0" "disabled"⟩] ∧
    (createTasks exTaskEnv c3FlagsBoth).2.filter (fun t => t.engine.isDecoded) ≠ [] := by
  decide

/-- C10: the scheduled trigger errors exactly when the current job id is
absent from the registry — logging the ERROR with the placeholder job and
starting no tasks — and on the found path any value it ever returns is
`nil`, because `start` returns `nil` on its only path. -/
theorem tcpdumpRun_error_iff_absent (jobs : Uuid → Option JobRecord) (jid : Uuid)
    (runOf : JobRecord → StartArgs) :
    ((∃ e, (tcpdumpRun jobs jid runOf).2.2 = some (Except.error e)) ↔ jobs jid = none) ∧
    (jobs jid = none →
      tcpdumpRun jobs jid runOf =
        ([⟨.ERROR, emptyTcpdumpJob, .jobNotFound (Uuid.str jid)⟩], [],
          some (Except.error (jobNotFoundMsg jid)))) ∧
    (∀ jr, jobs jid = some jr →
      (tcpdumpRun jobs jid runOf).2.1 = jr.tasks ∧
      ∀ v, (tcpdumpRun jobs jid runOf).2.2 = some v → v = Except.ok ()) := by
  cases h : jobs jid with
  | none =>
    refine ⟨⟨fun _ => rfl, fun _ => ⟨jobNotFoundMsg jid, by simp [tcpdumpRun, h]⟩⟩, ?_, ?_⟩
    · intro _; simp [tcpdumpRun, h]
    · intro jr hjr; simp [h] at hjr
  | some jr =>
    have hval : ∀ v, (tcpdumpRun jobs jid runOf).2.2 = some v → v = Except.ok () := by
      intro v hv
      simp only [tcpdumpRun, h, startReturn] at hv
      cases h2 : startReturnAt (runOf jr) with
      | none => rw [h2] at hv; simp at hv
      | some n => rw [h2] at hv; simp at hv; exact hv.symm
    refine ⟨⟨?_, fun hn => by simp [h] at hn⟩, fun hn => by simp [h] at hn, ?_⟩
    · rintro ⟨e, he⟩
      have := hval _ he
      simp at this
    · intro jr2 hjr2
      cases hjr2
      exact ⟨by simp [tcpdumpRun, h], hval⟩

/-- Witness: looking up an id in an empty registry. -/
theorem tcpdumpRun_error_iff_absent_witness :
    tcpdumpRun exJobsEmpty (Uuid.v 1) exRunOf =
      ([⟨.ERROR, emptyTcpdumpJob, .jobNotFound (Uuid.str (Uuid.v 1))⟩], [],
        some (Except.error (jobNotFoundMsg (Uuid.v 1)))) :=
  (tcpdumpRun_error_iff_absent exJobsEmpty (Uuid.v 1) exRunOf).2.1 rfl

end Tcpdumpw

namespace Tcpdumpw

/-! ## C6: partial-failure independence of the task factory -/

/-- C6: the tasks for interface B appear in the `createTasks` result,
unaltered, whatever happens on the other interfaces (each iteration of
the device loop contributes independently); and a resolution failure on B
is logged as an ERROR at the point of detection while contributing no
task, so processing continues with the remaining interfaces. -/
theorem createTasks_partial_failure_independence (env : TaskEnv) (f : Flags)
    (pre post : List String) (B : String) (h : env.devices = pre ++ B :: post) :
    (∃ l r, (createTasks env f).2 = l ++ (taskForIface env f B).2 ++ r) ∧
    (∀ e, env.interfaceByName B = Except.error e →
      taskForIface env f B = ([⟨.ERROR, emptyTcpdumpJob, .invalidIface B e⟩], [])) := by
  constructor
  · refine ⟨(pre.map (fun i => (taskForIface env f i).2)).flatten,
      (post.map (fun i => (taskForIface env f i).2)).flatten, ?_⟩
    rw [createTasks_eq, h]
    simp
  · intro e he
    simp [taskForIface, he]

/-- Witness: `wlan9` fails to resolve, yet the `eth0` raw task is built. -/
theorem createTasks_partial_failure_independence_witness :
    (∃ l r, (createTasks exTaskEnv2 exFlags).2 =
      l ++ (taskForIface exTaskEnv2 exFlags "eth0").2 ++ r) ∧
    (taskForIface exTaskEnv2 exFlags "eth0").2 = [exTcpdumpTask] ∧
    (taskForIface exTaskEnv2 exFlags "wlan9").2 = [] :=
  ⟨(createTasks_partial_failure_independence exTaskEnv2 exFlags ["wlan9"] [] "eth0" rfl).1,
    by decide, by decide⟩

/-! ## C5: exit codes and the no-tasks ERROR -/

/-- A log call whose message is not `noTasks` never counts. -/
theorem isNoTasksErr_false {c : LogCall} (h : c.message ≠ LogMsg.noTasks) :
    isNoTasksErr c = false := by
  unfold isNoTasksErr
  cases hs : c.severity <;> cases hm : c.message <;> first | rfl | exact absurd hm h

/-- No raw-phase log call is the no-tasks ERROR. -/
theorem rawPhase_no_noTasks (env : TaskEnv) (f : Flags) (i : String)
    (cfg : PcapConfig) {c : LogCall} (hc : c ∈ (rawPhase env f i cfg).1) :
    c.message ≠ LogMsg.noTasks := by
  unfold rawPhase at hc
  cases h : (if f.tcpdump then env.newTcpdump cfg else Except.error "disabled") with
  | error e => rw [h] at hc; simp at hc; simp [hc]
  | ok u => rw [h] at hc; simp at hc; simp [hc]

/-- No stdout-phase log call is the no-tasks ERROR. -/
theorem jsonStdoutPhase_no_noTasks (env : TaskEnv) (i : String)
    (cfg : PcapConfig) (ws : List (Option PcapWriter)) {c : LogCall}
    (hc : c ∈ (jsonStdoutPhase env i cfg ws).1) :
    c.message ≠ LogMsg.noTasks := by
  unfold jsonStdoutPhase at hc
  cases h : env.newStdoutPcapWriter with
  | error e => rw [h] at hc; simp at hc; simp [hc]
  | ok u => rw [h] at hc; simp at hc; simp [hc]

/-- No decoded-phase log call is the no-tasks ERROR. -/
theorem jsonPhase_no_noTasks (env : TaskEnv) (f : Flags) (i output : String)
    (cfg : PcapConfig) {c : LogCall}
    (hc : c ∈ (jsonPhase env f i output cfg).1) :
    c.message ≠ LogMsg.noTasks := by
  unfold jsonPhase at hc
  cases h : env.newPcap cfg with
  | error e => rw [h] at hc; simp at hc; simp [hc]
  | ok u =>
    rw [h] at hc
    simp only at hc
    split at hc
    · simp only [List.mem_append, List.mem_singleton] at hc
      rcases hc with hc | hc
      · simp [hc]
      · exact jsonStdoutPhase_no_noTasks env i cfg [] hc
    · split at hc
      · simp at hc
      · exact jsonStdoutPhase_no_noTasks env i cfg _ hc

/-- No task-factory log call is the no-tasks ERROR. -/
theorem taskForIface_no_noTasks (env : TaskEnv) (f : Flags) (i0 : String)
    {c : LogCall} (hc : c ∈ (taskForIface env f i0).1) :
    c.message ≠ LogMsg.noTasks := by
  unfold taskForIface at hc
  cases henv : env.interfaceByName i0 with
  | error e => rw [henv] at hc; simp at hc; simp [hc]
  | ok ifc =>
    rw [henv] at hc
    simp only at hc
    split at hc
    · simp only [List.mem_append, List.mem_singleton] at hc
      rcases hc with hc | hc
      · simp [hc]
      · exact rawPhase_no_noTasks env f _ _ hc
    · simp only [List.mem_append, List.mem_singleton] at hc
      rcases hc with (hc | hc) | hc
      · simp [hc]
      · exact rawPhase_no_noTasks env f _ _ hc
      · exact jsonPhase_no_noTasks env f _ _ _ hc

/-- No `createTasks` log call is the no-tasks ERROR. -/
theorem createTasks_no_noTasks (env : TaskEnv) (f : Flags) :
    ∀ c ∈ (createTasks env f).1, c.message ≠ LogMsg.noTasks := by
  intro c hc
  rw [createTasks_eq] at hc
  simp only [List.mem_flatten, List.mem_map] at hc
  obtain ⟨l, ⟨i, hi, rfl⟩, hcl⟩ := hc
  exact taskForIface_no_noTasks env f i hcl

/-- No timezone-block log call is the no-tasks ERROR. -/
theorem tz_no_noTasks (load : String → Except String String) (tz : String) :
    ∀ c ∈ tzLogCalls (timezoneFallback load tz).actions,
      c.message ≠ LogMsg.noTasks := by
  intro c hc
  cases h : load tz with
  | error e =>
    simp [timezoneFallback, h, tzLogCalls] at hc
    simp [hc]
  | ok loc => simp [timezoneFallback, h, tzLogCalls] at hc

/-- Counting distributes over append. -/
theorem countNoTasks_append (a b : List LogCall) :
    countNoTasks (a ++ b) = countNoTasks a + countNoTasks b := by
  simp [countNoTasks, List.filter_append]

/-- A list whose messages avoid `noTasks` counts zero. -/
theorem countNoTasks_zero (l : List LogCall)
    (h : ∀ c ∈ l, c.message ≠ LogMsg.noTasks) : countNoTasks l = 0 := by
  have h2 : ∀ c ∈ l, ¬(isNoTasksErr c = true) := by
    intro c hc
    simp [isNoTasksErr_false (h c hc)]
  simp [countNoTasks, List.filter_eq_nil_iff.mpr h2]

/-- A singleton with another message counts zero. -/
theorem countNoTasks_singleton (c : LogCall) (h : c.message ≠ LogMsg.noTasks) :
    countNoTasks [c] = 0 := by
  simp [countNoTasks, isNoTasksErr_false h]

/-- The no-tasks ERROR itself counts one. -/
theorem countNoTasks_noTasks (j : TcpdumpJob) :
    countNoTasks [⟨.ERROR, j, .noTasks⟩] = 1 := by
  simp [countNoTasks, isNoTasksErr]

/-- C5: the process exit code is 0 on normal shutdown, 1 when zero tasks
were constructed (with exactly one no-tasks ERROR, emitted last before the
exit), 2 when the scheduler cannot be created, and 3 when the scheduled
job cannot be created. -/
theorem main_exit_codes (me : MainEnv) (f : Flags) :
    ((createTasks me.taskEnv f).2 = [] →
      (mainModel me f).1 = 1 ∧
      countNoTasks (mainModel me f).2 = 1 ∧
      (mainModel me f).2.getLast? = some ⟨.ERROR, emptyTcpdumpJob, .noTasks⟩) ∧
    ((createTasks me.taskEnv f).2 ≠ [] →
      countNoTasks (mainModel me f).2 = 0 ∧
      (f.useCron = false → (mainModel me f).1 = 0) ∧
      (f.useCron = true →
        (∀ e, me.newScheduler = Except.error e → (mainModel me f).1 = 2) ∧
        (∀ e, me.newScheduler = Except.ok () → me.newJob = Except.error e →
          (mainModel me f).1 = 3) ∧
        (∀ u, me.newScheduler = Except.ok () → me.newJob = Except.ok u →
          (mainModel me f).1 = 0))) := by
  constructor
  · intro h0
    have hempty : (createTasks me.taskEnv f).2.isEmpty = true := by simp [h0]
    simp only [mainModel, hempty, if_true]
    refine ⟨by simp, ?_, ?_⟩
    · rw [countNoTasks_append, countNoTasks_append,
        countNoTasks_singleton _ (by simp),
        countNoTasks_zero _ (createTasks_no_noTasks me.taskEnv f),
        countNoTasks_noTasks]
    · rw [List.getLast?_concat]
  · intro h0
    have hempty : (createTasks me.taskEnv f).2.isEmpty = false := by simpa using h0
    simp only [mainModel, hempty, Bool.false_eq_true, if_false]
    cases hcron : f.useCron with
    | false =>
      simp only [Bool.not_false, if_true]
      refine ⟨?_, fun _ => by simp, fun h => by simp at h⟩
      apply countNoTasks_zero
      intro c hc
      simp only [List.mem_append, List.mem_cons, List.mem_singleton,
        List.not_mem_nil, or_false, or_assoc] at hc
      rcases hc with hc | hc | hc
      · simp [hc]
      · exact createTasks_no_noTasks me.taskEnv f c hc
      · simp [hc]
    | true =>
      simp only [Bool.not_true, Bool.false_eq_true, if_false]
      cases hs : me.newScheduler with
      | error e =>
        refine ⟨?_, ?_, ?_⟩
        · apply countNoTasks_zero
          intro c hc
          simp only [List.mem_append, List.mem_cons, List.mem_singleton,
            List.not_mem_nil, or_false, or_assoc] at hc
          rcases hc with hc | hc | hc | hc | hc | hc
          · simp [hc]
          · exact createTasks_no_noTasks me.taskEnv f c hc
          · simp [hc]
          · exact tz_no_noTasks me.loadLocation f.timezone c hc
          · simp [hc]
          · simp [hc]
        · intro h
          simp at h
        · intro _
          refine ⟨fun e2 he2 => by simp, ?_, ?_⟩
          · intro e2 he2 _
            cases he2
          · intro u2 he2 _
            cases he2
      | ok u =>
        cases hj : me.newJob with
        | error e =>
          refine ⟨?_, ?_, ?_⟩
          · apply countNoTasks_zero
            intro c hc
            simp only [List.mem_append, List.mem_cons, List.mem_singleton,
              List.not_mem_nil, or_false, or_assoc] at hc
            rcases hc with hc | hc | hc | hc | hc | hc
            · simp [hc]
            · exact createTasks_no_noTasks me.taskEnv f c hc
            · simp [hc]
            · exact tz_no_noTasks me.loadLocation f.timezone c hc
            · simp [hc]
            · simp [hc]
          · intro h
            simp at h
          · intro _
            refine ⟨?_, fun e2 _ he2 => by simp, ?_⟩
            · intro e2 he2
              cases he2
            · intro u2 _ he2
              cases he2
        | ok jid =>
          refine ⟨?_, ?_, ?_⟩
          · apply countNoTasks_zero
            intro c hc
            simp only [List.mem_append, List.mem_cons, List.mem_singleton,
              List.not_mem_nil, or_false, or_assoc] at hc
            rcases hc with hc | hc | hc | hc | hc | hc
            · simp [hc]
            · exact createTasks_no_noTasks me.taskEnv f c hc
            · simp [hc]
            · exact tz_no_noTasks me.loadLocation f.timezone c hc
            · simp [hc]
            · simp [hc]
          · intro h
            simp at h
          · intro _
            refine ⟨?_, ?_, fun u2 _ _ => by simp⟩
            · intro e2 he2
              cases he2
            · intro e2 _ he2
              cases he2

/-- Witness: a host with no matching device exits 1 after exactly one
no-tasks ERROR. -/
theorem main_exit_codes_witness :
    (mainModel exMainEnvEmpty exFlags).1 = 1 ∧
    countNoTasks (mainModel exMainEnvEmpty exFlags).2 = 1 ∧
    (mainModel exMainEnvEmpty exFlags).2.getLast? =
      some ⟨.ERROR, emptyTcpdumpJob, .noTasks⟩ :=
  (main_exit_codes exMainEnvEmpty exFlags).1 rfl

end Tcpdumpw

namespace Tcpdumpw

/-! ## C2: termination behaviour of `start` -/

/-- `oLE` is transitive. -/
theorem oLE_trans {a b c : Option Nat} (h1 : oLE a b) (h2 : oLE b c) : oLE a c := by
  cases a <;> cases b <;> cases c <;> simp_all [oLE]
  omega

/-- The left argument is no later than the maximum. -/
theorem oLE_omax_left (a b : Option Nat) : oLE a (omax a b) := by
  cases a <;> cases b <;> simp [oLE, omax]

/-- The right argument is no later than the maximum. -/
theorem oLE_omax_right (a b : Option Nat) : oLE b (omax a b) := by
  cases a <;> cases b <;> simp [oLE, omax]

/-- The fold over `omax` dominates its initial value. -/
theorem foldl_omax_init (l : List (Option Nat)) (init : Option Nat) :
    oLE init (l.foldl omax init) := by
  induction l generalizing init with
  | nil => cases init <;> simp [oLE]
  | cons x xs ih =>
    rw [List.foldl_cons]
    exact oLE_trans (oLE_omax_left init x) (ih (omax init x))

/-- The fold over `omax` dominates every member. -/
theorem foldl_omax_mem {x : Option Nat} {l : List (Option Nat)} (hx : x ∈ l)
    (init : Option Nat) : oLE x (l.foldl omax init) := by
  induction l generalizing init with
  | nil => cases hx
  | cons y ys ih =>
    rw [List.foldl_cons]
    rcases List.mem_cons.mp hx with h | h
    · subst h
      exact oLE_trans (oLE_omax_right init x) (foldl_omax_init ys (omax init x))
    · exact ih h (omax init y)

/-- A fold over `omax` of defined instants from a defined start is
defined. -/
theorem foldl_omax_isSome {l : List (Option Nat)} (h : ∀ x ∈ l, x.isSome)
    {init : Option Nat} (hi : init.isSome) : (l.foldl omax init).isSome := by
  induction l generalizing init with
  | nil => exact hi
  | cons x xs ih =>
    apply ih (fun y hy => h y (List.mem_cons_of_mem _ hy))
    have hx := h x (List.mem_cons_self _ _)
    cases init with
    | none => simp at hi
    | some a =>
      cases x with
      | none => simp at hx
      | some b => simp [omax]

/-- Once the context ends, every task goroutine returns at a definite
instant. -/
theorem taskReturnAt_isSome (d : Nat) (t : TaskRun) :
    (taskReturnAt (some d) t).isSome := by
  cases h : t.selfEnd <;> simp [taskReturnAt, h, omin]

/-- C2 (counterexample): with `timeout = 0`, no external cancellation, and
a single engine that self-terminates at instant 5, all tasks finish
naturally yet `start` never returns — it stays blocked on `<-ctx.Done()` —
contradicting the claim that the run also ends when all engines
self-terminate. -/
theorem start_counterexample :
    c2Args.timeout = 0 ∧
    c2Args.extCancel = none ∧
    allSelfEndAt c2Args = some 5 ∧
    ctxDoneAt c2Args = none ∧
    ¬((startReturnAt c2Args).isSome = true) := by
  decide

/-- When the context never ends, `start` never returns. -/
theorem startReturnAt_none (a : StartArgs) (h : ctxDoneAt a = none) :
    startReturnAt a = none := by
  unfold startReturnAt
  rw [h]

/-- When the context ends at `d`, `start` returns at the two-phase wait
bound. -/
theorem startReturnAt_some (a : StartArgs) (d : Nat) (h : ctxDoneAt a = some d) :
    startReturnAt a = (a.tasks.map (taskReturnAt (some d))).foldl omax (some d) := by
  unfold startReturnAt
  rw [h]

/-- C2 (amended): `start` returns exactly when the execution scope ends —
external cancellation, or the deadline when `timeout > 0` — and then only
after the scope end and after every per-task goroutine has returned; with
`timeout = 0` it returns exactly when external cancellation occurs, and
whenever it returns its value is `nil`. -/
theorem start_return_amended (a : StartArgs) :
    ((startReturnAt a).isSome ↔ (ctxDoneAt a).isSome) ∧
    (∀ d, ctxDoneAt a = some d →
      oLE (some d) (startReturnAt a) ∧
      ∀ t ∈ a.tasks, oLE (taskReturnAt (some d) t) (startReturnAt a)) ∧
    (a.timeout = 0 → ((startReturnAt a).isSome ↔ a.extCancel.isSome)) ∧
    (∀ p, startReturn a = some p → p.2 = Except.ok ()) := by
  have h1 : (startReturnAt a).isSome ↔ (ctxDoneAt a).isSome := by
    cases h : ctxDoneAt a with
    | none => simp [startReturnAt_none a h]
    | some d =>
      rw [startReturnAt_some a d h]
      simp only [Option.isSome_some, iff_true]
      apply foldl_omax_isSome
      · intro x hx
        simp only [List.mem_map] at hx
        obtain ⟨t, ht, rfl⟩ := hx
        exact taskReturnAt_isSome d t
      · rfl
  refine ⟨h1, ?_, ?_, ?_⟩
  · intro d hd
    rw [startReturnAt_some a d hd]
    constructor
    · exact foldl_omax_init _ _
    · intro t ht
      exact foldl_omax_mem (List.mem_map_of_mem _ ht) _
  · intro h0
    rw [h1]
    unfold ctxDoneAt
    rw [h0]
    simp
  · intro p hp
    unfold startReturn at hp
    cases h : startReturnAt a with
    | none => rw [h] at hp; simp at hp
    | some n =>
      rw [h] at hp
      have h3 : p = (n, Except.ok ()) := (Option.some.inj hp).symm
      rw [h3]

/-- Witness: the externally cancelled run returns at instant 5, no earlier
than the scope end at 3. -/
theorem start_return_amended_witness :
    oLE (some 3) (startReturnAt c2ArgsCancel) ∧ startReturnAt c2ArgsCancel = some 5 :=
  ⟨((start_return_amended c2ArgsCancel).2.1 3 (by decide)).1, by decide⟩

/-! ## C1: singleton enforcement by the scheduler -/

/-- The reschedule-mode trigger transition, spelled out. -/
theorem schedStep_reschedule_trigger (s : SchedState) :
    schedStep .reschedule s .trigger =
      if s.active = 0 then { s with active := s.active + 1, started := s.started + 1 }
      else { s with dropped := s.dropped + 1 } := rfl

/-- The reschedule-mode finish transition, spelled out. -/
theorem schedStep_reschedule_finish (s : SchedState) :
    schedStep .reschedule s .finish =
      if s.active = 0 then s else { s with active := s.active - 1 } := rfl

/-- One reschedule-mode step keeps at most one active execution and an
empty queue. -/
theorem schedStep_reschedule_pres {s : SchedState} (h1 : s.active ≤ 1)
    (h2 : s.queued = 0) (e : SchedEvent) :
    (schedStep .reschedule s e).active ≤ 1 ∧ (schedStep .reschedule s e).queued = 0 := by
  cases e with
  | trigger =>
    rw [schedStep_reschedule_trigger]
    by_cases h0 : s.active = 0
    · rw [if_pos h0]
      refine ⟨?_, h2⟩
      show s.active + 1 ≤ 1
      omega
    · rw [if_neg h0]
      exact ⟨h1, h2⟩
  | finish =>
    rw [schedStep_reschedule_finish]
    by_cases h0 : s.active = 0
    · rw [if_pos h0]
      exact ⟨h1, h2⟩
    · rw [if_neg h0]
      refine ⟨?_, h2⟩
      show s.active - 1 ≤ 1
      omega

/-- The reschedule-mode invariant is preserved along any trace. -/
theorem schedRunFrom_reschedule_pres (evs : List SchedEvent) :
    ∀ s : SchedState, s.active ≤ 1 → s.queued = 0 →
      (schedRunFrom .reschedule s evs).active ≤ 1 ∧
      (schedRunFrom .reschedule s evs).queued = 0 := by
  induction evs with
  | nil => intro s h1 h2; exact ⟨h1, h2⟩
  | cons e evs ih =>
    intro s h1 h2
    have hstep := schedStep_reschedule_pres h1 h2 e
    exact ih _ hstep.1 hstep.2

/-- A reschedule-mode step depends only on the observables. -/
theorem schedStep_obs_reschedule {s1 s2 : SchedState} (h : s1.obs = s2.obs)
    (e : SchedEvent) :
    (schedStep .reschedule s1 e).obs = (schedStep .reschedule s2 e).obs := by
  obtain ⟨ha, hq, hst⟩ : s1.active = s2.active ∧ s1.queued = s2.queued ∧
      s1.started = s2.started := by
    simpa [SchedState.obs, Prod.ext_iff] using h
  cases e with
  | trigger =>
    rw [schedStep_reschedule_trigger, schedStep_reschedule_trigger]
    by_cases h0 : s1.active = 0
    · rw [if_pos h0, if_pos (ha ▸ h0)]
      simp [SchedState.obs, ha, hq, hst]
    · rw [if_neg h0, if_neg (ha ▸ h0)]
      simp [SchedState.obs, ha, hq, hst]
  | finish =>
    rw [schedStep_reschedule_finish, schedStep_reschedule_finish]
    by_cases h0 : s1.active = 0
    · rw [if_pos h0, if_pos (ha ▸ h0)]
      simp [SchedState.obs, ha, hq, hst]
    · rw [if_neg h0, if_neg (ha ▸ h0)]
      simp [SchedState.obs, ha, hq, hst]

/-- Running from observationally equal states yields observationally
equal states. -/
theorem schedRunFrom_obs (evs : List SchedEvent) :
    ∀ s1 s2 : SchedState, s1.obs = s2.obs →
      (schedRunFrom .reschedule s1 evs).obs = (schedRunFrom .reschedule s2 evs).obs := by
  induction evs with
  | nil => intro s1 s2 h; exact h
  | cons e evs ih =>
    intro s1 s2 h
    exact ih _ _ (schedStep_obs_reschedule h e)

/-- C1: under the singleton mode `main` configures (reschedule), at most
one execution of the job is active after any event trace, no overlapping
trigger is ever queued, and a trigger that fires while an execution is
active leaves every observable of every future state exactly as if it had
not fired (so the next trigger time is unaffected). -/
theorem scheduler_singleton_enforcement (evs : List SchedEvent) :
    (schedRun mainSchedulerConfig.singletonMode evs).active ≤ 1 ∧
    (schedRun mainSchedulerConfig.singletonMode evs).queued = 0 ∧
    (∀ rest, (schedRun mainSchedulerConfig.singletonMode evs).active = 1 →
      (schedRun mainSchedulerConfig.singletonMode (evs ++ SchedEvent.trigger :: rest)).obs =
        (schedRun mainSchedulerConfig.singletonMode (evs ++ rest)).obs) := by
  have hmode : mainSchedulerConfig.singletonMode = LimitMode.reschedule := rfl
  rw [hmode]
  have hinv := schedRunFrom_reschedule_pres evs {} (by simp) (by simp)
  refine ⟨hinv.1, hinv.2, ?_⟩
  intro rest h1
  unfold schedRun schedRunFrom
  rw [List.foldl_append, List.foldl_append]
  rw [List.foldl_cons]
  apply schedRunFrom_obs
  have hne : ¬(List.foldl (schedStep .reschedule) {} evs).active = 0 := by
    have h2 : (schedRun .reschedule evs).active = 1 := by
      rw [← hmode]
      exact h1
    simp only [schedRun, schedRunFrom] at h2
    omega
  rw [schedStep_reschedule_trigger, if_neg hne]
  simp [SchedState.obs]

/-- Witness: a trigger that fires during the first execution changes no
observable. -/
theorem scheduler_singleton_enforcement_witness :
    (schedRun mainSchedulerConfig.singletonMode
        ([SchedEvent.trigger] ++ SchedEvent.trigger :: [])).obs =
      (schedRun mainSchedulerConfig.singletonMode ([SchedEvent.trigger] ++ [])).obs :=
  (scheduler_singleton_enforcement [SchedEvent.trigger]).2.2 [] (by decide)

/-! ## C4: timezone fallback ordering -/

/-- C4 (counterexample): with the unresolvable zone `America/Nowhere`, the
fallback block first substitutes UTC and only then logs the ERROR — whose
message parameter is the already-substituted `UTC` — so no ERROR log
precedes the substitution. -/
theorem timezone_claim_counterexample :
    (timezoneFallback c4Load "America/Nowhere").actions =
      [TzAction.substituteUTC,
        TzAction.logCall ⟨.ERROR, emptyTcpdumpJob,
          .couldNotLoadTimezone "UTC" "unknown time zone America/Nowhere"⟩] ∧
    ¬errLogBeforeSubstitute (timezoneFallback c4Load "America/Nowhere").actions := by
  constructor
  · decide
  · unfold errLogBeforeSubstitute
    decide

/-- C4 (amended): on an unresolvable zone the scheduler falls back to UTC
(the effective zone from then on) and logs exactly one ERROR event, but
the corrective substitution of UTC is applied before the error is emitted,
and the emitted message names the substituted `UTC` rather than the
configured identifier. -/
theorem timezoneFallback_amended (load : String → Except String String)
    (tz e : String) (h : load tz = Except.error e) :
    (timezoneFallback load tz).timezone = "UTC" ∧
    (timezoneFallback load tz).location = "UTC" ∧
    (timezoneFallback load tz).actions =
      [TzAction.substituteUTC,
        TzAction.logCall ⟨.ERROR, emptyTcpdumpJob, .couldNotLoadTimezone "UTC" e⟩] ∧
    (tzLogCalls (timezoneFallback load tz).actions).length = 1 := by
  simp [timezoneFallback, h, tzLogCalls]

/-- Witness: the amended behaviour at the concrete unresolvable zone. -/
theorem timezoneFallback_amended_witness :
    (timezoneFallback c4Load "America/Nowhere").timezone = "UTC" ∧
    (timezoneFallback c4Load "America/Nowhere").location = "UTC" ∧
    (timezoneFallback c4Load "America/Nowhere").actions =
      [TzAction.substituteUTC,
        TzAction.logCall ⟨.ERROR, emptyTcpdumpJob,
          .couldNotLoadTimezone "UTC" "unknown time zone America/Nowhere"⟩] ∧
    (tzLogCalls (timezoneFallback c4Load "America/Nowhere").actions).length = 1 :=
  timezoneFallback_amended c4Load "America/Nowhere"
    "unknown time zone America/Nowhere" (congrArg Except.error (by decide))

end Tcpdumpw

namespace Tcpdumpw

/-! ## C7: the interface-selection regex -/

/-- Inversion for concatenation. -/
theorem lang_cat_inv {a b : Regex} {w : List Char} (h : Lang (.cat a b) w) :
    ∃ u v, w = u ++ v ∧ Lang a u ∧ Lang b v := by
  cases h with
  | @catI _ _ u v hu hv => exact ⟨u, v, rfl, hu, hv⟩

/-- Nullability decides membership of the empty string. -/
theorem nullable_iff (r : Regex) : nullable r = true ↔ Lang r [] := by
  induction r with
  | emp =>
    simp only [nullable, Bool.false_eq_true, false_iff]
    intro h
    cases h
  | eps =>
    simp only [nullable, true_iff]
    exact Lang.eps
  | cls p =>
    simp only [nullable, Bool.false_eq_true, false_iff]
    intro h
    cases h
  | cat a b iha ihb =>
    simp only [nullable, Bool.and_eq_true, iha, ihb]
    constructor
    · rintro ⟨ha, hb⟩
      exact Lang.catI ha hb
    · intro h
      obtain ⟨u, v, huv, hu, hv⟩ := lang_cat_inv h
      obtain ⟨rfl, rfl⟩ := List.append_eq_nil.mp huv.symm
      exact ⟨hu, hv⟩
  | alt a b iha ihb =>
    simp only [nullable, Bool.or_eq_true, iha, ihb]
    constructor
    · rintro (ha | hb)
      · exact Lang.altL ha
      · exact Lang.altR hb
    · intro h
      cases h with
      | altL ha => exact Or.inl ha
      | altR hb => exact Or.inr hb
  | star r ih =>
    simp only [nullable, true_iff]
    exact Lang.starNil

/-- Soundness of the derivative: a word of the derivative, prefixed with
the character, is a word of the regex. -/
theorem deriv_sound {c : Char} : ∀ {r : Regex} {s : List Char},
    Lang (deriv r c) s → Lang r (c :: s) := by
  intro r
  induction r with
  | emp =>
    intro s h
    cases h
  | eps =>
    intro s h
    cases h
  | cls p =>
    intro s h
    by_cases hp : p c
    · rw [deriv, if_pos hp] at h
      cases h
      exact Lang.cls hp
    · rw [deriv, if_neg hp] at h
      cases h
  | cat a b iha ihb =>
    intro s h
    by_cases hn : nullable a
    · rw [deriv, if_pos hn] at h
      cases h with
      | altL h1 =>
        cases h1 with
        | @catI _ _ u v hu hv =>
          have : Lang (.cat a b) ((c :: u) ++ v) := Lang.catI (iha hu) hv
          simpa using this
      | altR h1 =>
        have ha : Lang a [] := (nullable_iff a).mp hn
        have : Lang (.cat a b) ([] ++ c :: s) := Lang.catI ha (ihb h1)
        simpa using this
    · rw [deriv, if_neg hn] at h
      cases h with
      | @catI _ _ u v hu hv =>
        have : Lang (.cat a b) ((c :: u) ++ v) := Lang.catI (iha hu) hv
        simpa using this
  | alt a b iha ihb =>
    intro s h
    cases h with
    | altL h1 => exact Lang.altL (iha h1)
    | altR h1 => exact Lang.altR (ihb h1)
  | star r ih =>
    intro s h
    cases h with
    | @catI _ _ u v hu hv =>
      have : Lang (.star r) ((c :: u) ++ v) := Lang.starCons (ih hu) hv
      simpa using this

/-- Completeness of the derivative: a word of the regex starting with the
character, with it removed, is a word of the derivative. -/
theorem deriv_complete {c : Char} : ∀ {r : Regex} {w : List Char},
    Lang r w → ∀ {s : List Char}, w = c :: s → Lang (deriv r c) s := by
  intro r w h
  induction h with
  | eps =>
    intro s hs
    simp at hs
  | @cls p ch hp =>
    intro s hs
    obtain ⟨rfl, rfl⟩ : ch = c ∧ s = [] := by
      constructor
      · exact (List.cons.inj hs).1
      · exact ((List.cons.inj hs).2).symm
    rw [deriv, if_pos hp]
    exact Lang.eps
  | @catI a b u v hu hv ihu ihv =>
    intro s hs
    cases hcu : u with
    | nil =>
      subst hcu
      have hna : nullable a = true := (nullable_iff a).mpr hu
      rw [deriv, if_pos hna]
      exact Lang.altR (ihv (by simpa using hs))
    | cons x u2 =>
      subst hcu
      have hinj := List.cons.inj (by simpa using hs)
      have h2 : Lang (.cat (deriv a c) b) (u2 ++ v) :=
        Lang.catI (ihu (by rw [hinj.1])) hv
      rw [← hinj.2]
      by_cases hn : nullable a
      · rw [deriv, if_pos hn]
        exact Lang.altL h2
      · rw [deriv, if_neg hn]
        exact h2
  | altL hu ihu =>
    intro s hs
    exact Lang.altL (ihu hs)
  | altR hu ihu =>
    intro s hs
    exact Lang.altR (ihu hs)
  | starNil =>
    intro s hs
    simp at hs
  | @starCons r u v hu hv ihu ihv =>
    intro s hs
    cases hcu : u with
    | nil =>
      subst hcu
      exact ihv (by simpa using hs)
    | cons x u2 =>
      subst hcu
      have hinj := List.cons.inj (by simpa using hs)
      rw [deriv, ← hinj.2]
      exact Lang.catI (ihu (by rw [hinj.1])) hv

/-- The anchored search accepts exactly the texts with a matching chunk at
position 0. -/
theorem searchAt_iff (r : Regex) (s : List Char) :
    searchAt r s = true ↔ ∃ u v, s = u ++ v ∧ Lang r u := by
  induction s generalizing r with
  | nil =>
    rw [searchAt]
    constructor
    · intro h
      exact ⟨[], [], rfl, (nullable_iff r).mp h⟩
    · rintro ⟨u, v, huv, hu⟩
      obtain ⟨rfl, rfl⟩ := List.append_eq_nil.mp huv.symm
      exact (nullable_iff r).mpr hu
  | cons c s2 ih =>
    rw [searchAt, Bool.or_eq_true]
    constructor
    · rintro (h | h)
      · exact ⟨[], c :: s2, rfl, (nullable_iff r).mp h⟩
      · obtain ⟨u, v, rfl, hu⟩ := (ih (deriv r c)).mp h
        exact ⟨c :: u, v, by simp, deriv_sound hu⟩
    · rintro ⟨u, v, huv, hu⟩
      cases u with
      | nil =>
        exact Or.inl ((nullable_iff r).mpr hu)
      | cons x u2 =>
        have hinj := List.cons.inj (by simpa using huv)
        refine Or.inr ((ih (deriv r c)).mpr ⟨u2, v, hinj.2, ?_⟩)
        exact deriv_complete hu (by rw [hinj.1])

/-- The language of a single character. -/
theorem lang_chr {c : Char} {u : List Char} : Lang (chr c) u ↔ u = [c] := by
  constructor
  · intro h
    cases h with
    | @cls _ ch hp =>
      have : ch = c := by simpa using hp
      rw [this]
  · rintro rfl
    exact Lang.cls (by simp)

/-- The language of a literal string. -/
theorem lang_strR {w : List Char} : ∀ {u : List Char}, Lang (strR w) u ↔ u = w := by
  induction w with
  | nil =>
    intro u
    constructor
    · intro h
      cases h
      rfl
    · rintro rfl
      exact Lang.eps
  | cons c w2 ih =>
    intro u
    constructor
    · intro h
      cases h with
      | @catI _ _ u1 u2 h1 h2 =>
        rw [lang_chr.mp h1, ih.mp h2]
        rfl
    · rintro rfl
      have : Lang (strR (c :: w2)) ([c] ++ w2) :=
        Lang.catI (lang_chr.mpr rfl) (ih.mpr rfl)
      simpa using this

/-- `.*` accepts everything. -/
theorem lang_star_any (w : List Char) : Lang (.star anyChar) w := by
  induction w with
  | nil => exact Lang.starNil
  | cons c w2 ih =>
    have : Lang (.star anyChar) ([c] ++ w2) := Lang.starCons (Lang.cls rfl) ih
    simpa using this

/-- The language of `\d+.*`: a digit followed by anything. -/
theorem lang_digit_tail {u : List Char} :
    Lang (.cat (rplus digitCls) (.star anyChar)) u ↔
      ∃ d rest, d.isDigit = true ∧ u = d :: rest := by
  constructor
  · intro h
    cases h with
    | @catI _ _ u1 u2 h1 h2 =>
      cases h1 with
      | @catI _ _ u3 u4 h3 h4 =>
        cases h3 with
        | @cls _ d hd =>
          exact ⟨d, u4 ++ u2, hd, by simp⟩
  · rintro ⟨d, rest, hd, rfl⟩
    have h1 : Lang (rplus digitCls) ([d] ++ []) :=
      Lang.catI (Lang.cls hd) Lang.starNil
    have : Lang (.cat (rplus digitCls) (.star anyChar)) (([d] ++ []) ++ rest) :=
      Lang.catI h1 (lang_star_any rest)
    simpa using this

/-- The language of the interface regex: optional `ipvlan-` prefix, the
literal pattern, a digit, then anything. -/
theorem lang_ifaceRegex {pat u : List Char} :
    Lang (ifaceRegex pat) u ↔
      ∃ d rest, d.isDigit = true ∧
        (u = pat ++ d :: rest ∨ u = ipvlanChars ++ (pat ++ d :: rest)) := by
  unfold ifaceRegex
  constructor
  · intro h
    cases h with
    | @catI _ _ u1 u2 h1 h2 =>
      cases h2 with
      | @catI _ _ u3 u4 h3 h4 =>
        obtain ⟨d, rest, hd, rfl⟩ := lang_digit_tail.mp h4
        rw [lang_strR.mp h3]
        cases h1 with
        | altL h5 =>
          rw [lang_strR.mp h5]
          exact ⟨d, rest, hd, Or.inr rfl⟩
        | altR h5 =>
          cases h5
          exact ⟨d, rest, hd, Or.inl (by simp)⟩
  · rintro ⟨d, rest, hd, h | h⟩
    · subst h
      have h4 : Lang (.cat (rplus digitCls) (.star anyChar)) (d :: rest) :=
        lang_digit_tail.mpr ⟨d, rest, hd, rfl⟩
      have h2 : Lang (.cat (strR pat) (.cat (rplus digitCls) (.star anyChar)))
          (pat ++ d :: rest) := Lang.catI (lang_strR.mpr rfl) h4
      have : Lang (.cat (opt (strR ipvlanChars))
          (.cat (strR pat) (.cat (rplus digitCls) (.star anyChar))))
          ([] ++ (pat ++ d :: rest)) := Lang.catI (Lang.altR Lang.eps) h2
      simpa using this
    · subst h
      have h4 : Lang (.cat (rplus digitCls) (.star anyChar)) (d :: rest) :=
        lang_digit_tail.mpr ⟨d, rest, hd, rfl⟩
      have h2 : Lang (.cat (strR pat) (.cat (rplus digitCls) (.star anyChar)))
          (pat ++ d :: rest) := Lang.catI (lang_strR.mpr rfl) h4
      exact Lang.catI (Lang.altL (lang_strR.mpr rfl)) h2

/-- The anchored search for the interface regex, characterised. -/
theorem searchAt_ifaceRegex {pat s : List Char} :
    searchAt (ifaceRegex pat) s = true ↔
      ∃ d rest, d.isDigit = true ∧
        (s = pat ++ d :: rest ∨ s = ipvlanChars ++ (pat ++ d :: rest)) := by
  rw [searchAt_iff]
  constructor
  · rintro ⟨u, v, rfl, hu⟩
    obtain ⟨d, rest, hd, h | h⟩ := lang_ifaceRegex.mp hu
    · exact ⟨d, rest ++ v, hd, Or.inl (by simp [h])⟩
    · exact ⟨d, rest ++ v, hd, Or.inr (by simp [h])⟩
  · rintro ⟨d, rest, hd, h | h⟩
    · exact ⟨s, [], by simp, lang_ifaceRegex.mpr ⟨d, rest, hd, Or.inl h⟩⟩
    · exact ⟨s, [], by simp, lang_ifaceRegex.mpr ⟨d, rest, hd, Or.inr h⟩⟩

/-- `leadMatch` decides "begins with the pattern followed by a digit". -/
theorem leadMatch_iff : ∀ {pat s : List Char},
    leadMatch pat s = true ↔ ∃ d rest, d.isDigit = true ∧ s = pat ++ d :: rest := by
  intro pat
  induction pat with
  | nil =>
    intro s
    cases s with
    | nil =>
      simp [leadMatch]
    | cons c s2 =>
      rw [leadMatch]
      constructor
      · intro h
        exact ⟨c, s2, h, rfl⟩
      · rintro ⟨d, rest, hd, h⟩
        obtain ⟨rfl, rfl⟩ : c = d ∧ s2 = rest := by
          have := List.cons.inj (by simpa using h)
          exact ⟨this.1, this.2⟩
        exact hd
  | cons p pat2 ih =>
    intro s
    cases s with
    | nil =>
      rw [leadMatch]
      simp
    | cons c s2 =>
      rw [leadMatch, Bool.and_eq_true, beq_iff_eq, ih]
      constructor
      · rintro ⟨rfl, d, rest, hd, rfl⟩
        exact ⟨d, rest, hd, rfl⟩
      · rintro ⟨d, rest, hd, h⟩
        have h2 := List.cons.inj (by simpa using h)
        exact ⟨h2.1.symm, d, rest, hd, h2.2⟩

/-- The compiled regex and the documented matcher agree on every name. -/
theorem ifaceNameMatch_eq_search (pat s : List Char) :
    searchAt (ifaceRegex pat) s = ifaceNameMatch pat s := by
  have h2 : ifaceNameMatch pat s = true ↔
      ∃ d rest, d.isDigit = true ∧
        (s = pat ++ d :: rest ∨ s = ipvlanChars ++ (pat ++ d :: rest)) := by
    unfold ifaceNameMatch
    rw [Bool.or_eq_true, leadMatch_iff, leadMatch_iff]
    constructor
    · rintro (⟨d, rest, hd, h⟩ | ⟨d, rest, hd, h⟩)
      · exact ⟨d, rest, hd, Or.inl h⟩
      · exact ⟨d, rest, hd, Or.inr (by simpa [List.append_assoc] using h)⟩
    · rintro ⟨d, rest, hd, h | h⟩
      · exact Or.inl ⟨d, rest, hd, h⟩
      · exact Or.inr ⟨d, rest, hd, by simpa [List.append_assoc] using h⟩
  by_cases hA : searchAt (ifaceRegex pat) s = true
  · rw [hA]
    exact (h2.mpr (searchAt_ifaceRegex.mp hA)).symm
  · have hB : ¬ifaceNameMatch pat s = true := fun hb =>
      hA (searchAt_ifaceRegex.mpr (h2.mp hb))
    rw [Bool.not_eq_true] at hA hB
    rw [hA, hB]

/-- C7: the Device Selector selects exactly the host interface names
matching `^(?:ipvlan-)?<pat>\d+.*` — equivalently, an optional `ipvlan-`
prefix, then the literal pattern, then a digit; on the spec scenario with
pattern `eth`, `eth0` and `ipvlan-eth1` are selected and `lo` (non-numeric
suffix) is excluded. -/
theorem deviceSelect_spec (pat : List Char) (hostIfaces : List (List Char)) :
    selectDevices pat hostIfaces = hostIfaces.filter (fun s => ifaceNameMatch pat s) ∧
    selectDevices ethPat [eth0Chars, loChars, ipvlanEth1Chars] =
      [eth0Chars, ipvlanEth1Chars] := by
  constructor
  · unfold selectDevices
    apply List.filter_congr
    intro s _
    exact ifaceNameMatch_eq_search pat s
  · decide

end Tcpdumpw
